import Mathlib

/-!
Shallow embedding of the HTMpandaVis repository (three Python files:
HotgymExample/hotgym.py, PandaVis/interaction.py, Panda3d/neuron.py).

The heavy algorithms (encoders, spatial pooler, temporal memory, predictor,
anomaly likelihood) live in an external library; the repository only calls
them. Accordingly the embedding treats each external call's outputs as an
oracle (a `StepData` value per step) and models exactly the glue code of the
repository: how `main` reads the CSV, fills the visualization `ServerData`,
publishes it, busy-waits on the server flags, appends inputs/predictions,
and shifts the prediction lists; and how the interaction / neuron classes
react to events. Python floats are modelled as exact rationals and the
float NaN sentinel in the prediction lists as `Option.none`; Python
exceptions make a function return `Option.none`.
-/

/-! ## hotgym.py: data model -/

/-- A sparse distributed representation as the visualization code uses it:
its list of active bit indices (`sdr.sparse`) and its total size
(`sdr.size`). -/
structure SDRv where
  sparse : List Nat
  size : Nat
  deriving DecidableEq

/-- One CSV data row: `record[0]` is the date string, `record[1]` the
consumption string. -/
abbrev Record := String × String

/-- Mirror of the external `dataInput` object as hotgym.py fills it. -/
structure DataInput where
  stringValue : String
  bits : List Nat
  count : Nat
  deriving DecidableEq

/-- Mirror of the external `dataLayer` object as hotgym.py fills it. -/
structure DataLayer where
  activeColumns : List Nat
  winnerCells : List Nat
  predictiveCells : List Nat
  deriving DecidableEq

/-- The part of `ServerData` that `BuildPandaSystem` creates and `main`
fills each step: `HTMObjects["HTM1"]` with its two inputs and its single
layer `SensoryLayer`. -/
structure HTM1Data where
  slConsumption : DataInput
  slTimeOfDay : DataInput
  sensoryLayer : DataLayer
  deriving DecidableEq

/-- Outputs of all the external-library calls made for one record of the
training loop, treated as an oracle: the encoders, the spatial pooler, the
temporal memory accessors and the predictor pdf. `consumption` is
`float(record[1])` and `consumptionStr` the external 2-decimal formatting
of it. -/
structure StepData where
  consumption : ℚ
  consumptionStr : String
  consumptionBits : SDRv
  dateBits : SDRv
  activeColumns : SDRv
  winnerCells : SDRv
  predictiveCells : SDRv
  pdf1 : List ℚ
  pdf5 : List ℚ

/-- The two flags of the external `PandaServer` that the training loop
reads and writes. -/
structure ServerFlags where
  runInLoop : Bool
  runOneStep : Bool
  deriving DecidableEq

/-! ## hotgym.py: reading the input file (lines 69-77) -/

/-- `main` lines 69-77: `headers = next(reader)` and two further bare
`next(reader)` calls discard the first three rows; every remaining row is
appended to `records` in file order. Fewer than three rows would raise
`StopIteration`, modelled as `none`. -/
def readRecords : List Record → Option (List Record)
  | _headers :: _second :: _third :: rest => some rest
  | _ => none

/-! ## hotgym.py: the per-record visualization phase (lines 170-199) -/

/-- Lines 172-183: fill the `ServerData` fields from the current record and
the current step's external outputs. -/
def stepVis (record : Record) (d : StepData) (sd : HTM1Data) : HTM1Data :=
  { sd with
    slConsumption :=
      { stringValue := "consumption: " ++ d.consumptionStr
        bits := d.consumptionBits.sparse
        count := d.consumptionBits.size }
    slTimeOfDay :=
      { stringValue := record.1
        bits := d.dateBits.sparse
        count := d.dateBits.size }
    sensoryLayer :=
      { activeColumns := d.activeColumns.sparse
        winnerCells := d.winnerCells.sparse
        predictiveCells := d.predictiveCells.sparse } }

/-- Lines 192-193: `while not pandaServer.runInLoop and not
pandaServer.runOneStep: pass`. The flags are written concurrently by the
server thread, so the loop's successive reads are an oracle
`obs : Nat → ServerFlags` indexed by a poll counter; the wait returns the
first poll index at which a flag is true. `fuel` bounds the number of
polls so the busy-wait is total; `none` means the wait never ended within
`fuel` polls. -/
def busyWait (obs : Nat → ServerFlags) : Nat → Nat → Option Nat
  | 0, _ => none
  | fuel + 1, t =>
      if (obs t).runInLoop || (obs t).runOneStep then some t
      else busyWait obs fuel (t + 1)

/-- Observable actions of one iteration of the training loop, in program
order: setting `pandaServer.serverData` and calling `NewStateDataReady`
(lines 185-189), exiting the busy-wait (line 192-193), the assignment
`pandaServer.runOneStep = False` (line 194), and `tm.activateCells` for
step `count` (line 199). -/
inductive LoopEvent where
  | publish (d : HTM1Data)
  | waitExit (t : Nat)
  | resetOneStep
  | activateCells (count : Nat)
  deriving DecidableEq

/-- One record's visualization phase, lines 170-199: fill the server data,
publish it, busy-wait on the flags, reset `runOneStep`, then proceed to
`tm.activateCells`. Returns the published data, the poll counter for the
next record, and the events in program order. -/
def recordPhase (obs : Nat → ServerFlags) (fuel : Nat) (record : Record)
    (d : StepData) (sd : HTM1Data) (t : Nat) (count : Nat) :
    Option (HTM1Data × Nat × List LoopEvent) :=
  match busyWait obs fuel t with
  | none => none
  | some tExit =>
      some (stepVis record d sd, tExit + 1,
        [LoopEvent.publish (stepVis record d sd), LoopEvent.waitExit tExit,
         LoopEvent.resetOneStep, LoopEvent.activateCells count])

/-! ## hotgym.py: the training loop (lines 136-221) -/

/-- Line 134: `predictor_resolution = 1`. -/
def predictor_resolution : Nat := 1

/-- Helper for `argmax`: scan with current index, best index and best
value. `np.argmax` returns the first index of the maximum. -/
def argmaxAux : List ℚ → Nat → Nat → ℚ → Nat
  | [], _, best, _ => best
  | x :: rest, i, best, bestv =>
      if x > bestv then argmaxAux rest (i + 1) i x
      else argmaxAux rest (i + 1) best bestv

/-- `np.argmax` on a pdf list: first index of the maximal entry, 0 on an
empty list. -/
def argmax : List ℚ → Nat
  | [] => 0
  | x :: rest => argmaxAux rest 1 0 x

/-- Lines 208-212: `if pdf[n]: predictions[n].append(np.argmax(pdf[n]) *
predictor_resolution) else: predictions[n].append(float(nan))`, with NaN
as `none`. -/
def predOfPdf (pdf : List ℚ) : Option Nat :=
  if pdf ≠ [] then some (argmax pdf * predictor_resolution) else none

/-- Accumulated loop state: the current server data, the busy-wait poll
counter, and the `inputs` and `predictions` lists that `main` appends to
once per record. -/
structure LoopAcc where
  sd : HTM1Data
  t : Nat
  inputs : List ℚ
  preds1 : List (Option Nat)
  preds5 : List (Option Nat)

/-- Initial accumulator: the lists start empty (lines 137-140). -/
def mkAcc (sd : HTM1Data) (t : Nat) : LoopAcc :=
  { sd := sd, t := t, inputs := [], preds1 := [], preds5 := [] }

/-- Lines 141-221: `for count, record in enumerate(records)`. Each
iteration appends `consumption` to `inputs` (line 147), runs the
visualization phase (lines 170-199), and appends one prediction per
horizon (lines 208-212). External computations for step `count` come from
the oracle `stepData count`. Returns the final accumulator and the
concatenated event trace, or `none` if some busy-wait exhausted its
fuel. -/
def runLoop (obs : Nat → ServerFlags) (fuel : Nat) (stepData : Nat → StepData) :
    List Record → Nat → LoopAcc → Option (LoopAcc × List LoopEvent)
  | [], _, acc => some (acc, [])
  | record :: rest, count, acc =>
      let d := stepData count
      match recordPhase obs fuel record d acc.sd acc.t count with
      | none => none
      | some (sd1, t1, evs) =>
          match runLoop obs fuel stepData rest (count + 1)
              { sd := sd1, t := t1
                inputs := acc.inputs ++ [d.consumption]
                preds1 := acc.preds1 ++ [predOfPdf d.pdf1]
                preds5 := acc.preds5 ++ [predOfPdf d.pdf5] } with
          | none => none
          | some (accF, evsF) => some (accF, evs ++ evsF)

/-! ## hotgym.py: prediction shifting (lines 233-237) -/

/-- One iteration of the inner shifting loop: `pred_list.insert(0,
float(nan)); pred_list.pop()`. -/
def shiftStep (l : List (Option Nat)) : List (Option Nat) :=
  (none :: l).dropLast

/-- Lines 234-237: for horizon `n`, the inner loop body runs `n` times. -/
def shiftPredictions (n : Nat) (l : List (Option Nat)) : List (Option Nat) :=
  shiftStep^[n] l

/-! ## Trace observation helpers -/

/-- The data values published via `NewStateDataReady`, in order. -/
def published (evs : List LoopEvent) : List HTM1Data :=
  evs.filterMap fun e =>
    match e with
    | LoopEvent.publish d => some d
    | _ => none

/-- The step indices at which `tm.activateCells` ran, in order. -/
def activations (evs : List LoopEvent) : List Nat :=
  evs.filterMap fun e =>
    match e with
    | LoopEvent.activateCells c => some c
    | _ => none

/-- Specification sequence: the server data published at each successive
step, starting from server data `sd` and step index `count`. -/
def visSeq (stepData : Nat → StepData) : List Record → Nat → HTM1Data → List HTM1Data
  | [], _, _ => []
  | record :: rest, count, sd =>
      let sd1 := stepVis record (stepData count) sd
      sd1 :: visSeq stepData rest (count + 1) sd1

/-- Specification sequence of appended inputs. -/
def inputsSeq (stepData : Nat → StepData) : List Record → Nat → List ℚ
  | [], _ => []
  | _ :: rest, count => (stepData count).consumption :: inputsSeq stepData rest (count + 1)

/-- Specification sequence of appended predictions for one horizon's pdf
selector. -/
def predsSeq (sel : StepData → List ℚ) (stepData : Nat → StepData) :
    List Record → Nat → List (Option Nat)
  | [], _ => []
  | _ :: rest, count =>
      predOfPdf (sel (stepData count)) :: predsSeq sel stepData rest (count + 1)

/-! ## interaction.py: scene graph model -/

/-- A node of the Panda3D scene graph: its name and its tag dictionary. -/
structure SceneNode where
  name : String
  tags : List (String × String)
  deriving DecidableEq

/-- `NodePath.getTag`: the tag value, or the empty string when the tag is
absent. -/
def getTag (n : SceneNode) (k : String) : String :=
  (n.tags.lookup k).getD ""

/-- `NodePath.hasTag`: whether the tag is present at all. -/
def hasTag (n : SceneNode) (k : String) : Bool :=
  (n.tags.lookup k).isSome

/-- A `NodePath` is modelled as the list of scene nodes from the root
(`render`) down to the node itself; the empty list is the empty
`NodePath`. -/
abbrev NodePathM := List SceneNode

/-- Helper for `findNetTag`, scanning a node-to-root list for the first
node carrying the tag and returning that node's root-to-node path. -/
def findNetTagRev (k : String) : List SceneNode → NodePathM
  | [] => []
  | n :: rest => if hasTag n k then (n :: rest).reverse else findNetTagRev k rest

/-- `NodePath.findNetTag`: the lowest ancestor-or-self carrying the tag
`k`, as a root-to-node path; the empty path when no ancestor carries
it. -/
def findNetTag (p : NodePathM) (k : String) : NodePathM :=
  findNetTagRev k p.reverse

/-! ## interaction.py: onClickObject (lines 161-177) -/

/-- One entry of the `CollisionHandlerQueue`: its sort key (the collision
distance) and the `NodePath` of the into node. -/
structure CollisionEntry where
  dist : ℚ
  intoNodePath : NodePathM

/-- Insert an entry into a distance-sorted list. -/
def insertEntry (e : CollisionEntry) : List CollisionEntry → List CollisionEntry
  | [] => [e]
  | x :: rest => if e.dist ≤ x.dist then e :: x :: rest else x :: insertEntry e rest

/-- `CollisionHandlerQueue.sortEntries`: sort the queue by collision
distance, nearest first. -/
def sortEntries : List CollisionEntry → List CollisionEntry
  | [] => []
  | e :: rest => insertEntry e (sortEntries rest)

/-- Engine calls performed by `onClickObject` before inspecting the queue:
`pickerRay.setFromLens(camNode, mpos.x, mpos.y)` and
`myTraverser.traverse(render)`. -/
inductive PickAction where
  | setFromLens (mx my : ℚ)
  | traverse
  deriving DecidableEq

/-- Fallback entry for `getEntry(0)`; unreachable because it is only read
behind the non-empty check. -/
def defaultEntry : CollisionEntry := { dist := 0, intoNodePath := [] }

/-- Lines 161-177: cast the picker ray from the lens through the mouse
position, traverse the scene, and when the collision queue is non-empty
take the closest entry after sorting, look for the net tag "clickable" on
its into node path, and hand the found path to `HandlePickedObject` when
it is non-empty. Returns the engine actions performed and the picked
object handed over, if any. -/
def onClickObject (mx my : ℚ) (entries : List CollisionEntry) :
    List PickAction × Option NodePathM :=
  let actions := [PickAction.setFromLens mx my, PickAction.traverse]
  if entries.length > 0 then
    let sorted := sortEntries entries
    let pickedObj := (sorted.headD defaultEntry).intoNodePath
    let pickedObj := findNetTag pickedObj "clickable"
    if pickedObj.isEmpty then (actions, none)
    else (actions, some pickedObj)
  else (actions, none)

/-! ## interaction.py: HandlePickedObject (lines 204-247) -/

/-- A cell object is identified by a unique object id (Python object
identity). -/
abbrev Cell := Nat

/-- A cortical column object: its list of cell objects. -/
abbrev Column := List Cell

/-- A layer object: its list of cortical columns. -/
structure LayerEnv where
  corticalColumns : List Column

/-- An HTM object: its layer dictionary. -/
structure HTMObjectEnv where
  layers : List (String × LayerEnv)

/-- The parts of `base` that `HandlePickedObject` reads: the HTM object
dictionary and, for each cell object, its `.column` attribute (the column
object it was built in). -/
structure BaseEnv where
  htmObjects : List (String × HTMObjectEnv)
  cellColumnOf : Cell → Column

/-- The gui fields that `HandlePickedObject` writes or reads. -/
structure GuiState where
  focusedCell : Option Cell
  focusedPath : Option (List String)
  columnID : Nat
  cellID : Nat
  showProximalSynapses : Bool
  showDistalSynapses : Bool
  deriving DecidableEq

/-- The interaction state: the controller's own focus bookkeeping, the gui
state, and the set of cell objects whose graphics focus flag is currently
set (`setFocus` sets it, `resetFocus` clears it). -/
structure InteractionState where
  focusedCell : Option Cell
  focusedPath : Option (List String)
  gui : GuiState
  focusFlags : List Cell
  deriving DecidableEq

/-- Calls `HandlePickedObject` makes on other objects, in program order. -/
inductive HEvent where
  | resetFocus (c : Cell)
  | setFocus (c : Cell)
  | reqProximalData
  | reqDistalData
  | testRoutine
  deriving DecidableEq

/-- Helper for `parseNat`: accumulate decimal digits, failing on any
non-digit character. -/
def digitsToNat : List Char → Nat → Option Nat
  | [], acc => some acc
  | c :: rest, acc =>
      if c.isDigit then digitsToNat rest (acc * 10 + (c.toNat - 48))
      else none

/-- Model of Python `int(tagValue)` on the non-negative decimal tag
strings the scene uses: the parsed number, or `none` (an exception) when
the string is empty or holds a non-digit. -/
def parseNat (s : String) : Option Nat :=
  match s.data with
  | [] => none
  | l => digitsToNat l 0

/-- Lines 204-247. `int(...)` on a non-numeric tag, a missing dictionary
key and an out-of-range index raise, modelled as `none`. When the parent's
"id" tag is empty the method returns early with nothing changed. On a node
named "cell" it resolves the cell object from the path names (str(obj)
split on "/"), resets the previously focused cell, focuses the new one and
updates the gui; on "basement" it runs the test routine. -/
def HandlePickedObject (env : BaseEnv) (s : InteractionState) (obj : NodePathM) :
    Option (InteractionState × List HEvent) := do
  let node ← obj.getLast?
  let thisId ← parseNat (getTag node "clickable")
  let parent ← obj.dropLast.getLast?
  let tag := getTag parent "id"
  if tag = "" then
    return (s, [])
  else
    let parentId ← parseNat tag
    if node.name = "cell" then
      let names := obj.map SceneNode.name
      let focusedHTMObject ← names[1]?
      let focusedLayer ← names[2]?
      let htmObj ← env.htmObjects.lookup focusedHTMObject
      let layer ← htmObj.layers.lookup focusedLayer
      let column ← layer.corticalColumns[parentId]?
      let newCellFocus ← column[thisId]?
      let focusedPath := [focusedHTMObject, focusedLayer]
      let resetEvs : List HEvent :=
        match s.focusedCell with
        | some old => [HEvent.resetFocus old]
        | none => []
      let flags1 :=
        match s.focusedCell with
        | some old => s.focusFlags.filter (fun c => c ≠ old)
        | none => s.focusFlags
      let flags2 := newCellFocus :: flags1.filter (fun c => c ≠ newCellFocus)
      let columnID := layer.corticalColumns.indexOf (env.cellColumnOf newCellFocus)
      let cellID := ((layer.corticalColumns.getD columnID []).indexOf newCellFocus)
      let reqEvs : List HEvent :=
        (if s.gui.showProximalSynapses then [HEvent.reqProximalData] else []) ++
        (if s.gui.showDistalSynapses then [HEvent.reqDistalData] else [])
      let gui1 : GuiState :=
        { s.gui with
          focusedCell := some newCellFocus
          focusedPath := some focusedPath
          columnID := columnID
          cellID := cellID }
      let s1 : InteractionState :=
        { focusedCell := some newCellFocus
          focusedPath := some focusedPath
          gui := gui1
          focusFlags := flags2 }
      return (s1, resetEvs ++ [HEvent.setFocus newCellFocus] ++ reqEvs)
    else if node.name = "basement" then
      return (s, [HEvent.testRoutine])
    else
      return (s, [])

/-- The focus invariant: every cell whose graphics focus flag is set is
the cell the controller tracks as focused, so at most one cell is
focused. -/
def FocusInv (s : InteractionState) : Prop :=
  ∀ c ∈ s.focusFlags, s.focusedCell = some c

instance (s : InteractionState) : Decidable (FocusInv s) := by
  unfold FocusInv; infer_instance

/-! ## interaction.py: UpdateCameraMovement (lines 34-77) -/

/-- Values of the movement keys as `onKey` stores them (0 or 1, used as
numbers). -/
structure Keys6 where
  a : ℚ
  d : ℚ
  w : ℚ
  s : ℚ
  shift : ℚ
  control : ℚ
  arrow_left : ℚ
  arrow_right : ℚ
  arrow_up : ℚ
  arrow_down : ℚ
  deriving DecidableEq

/-- Frame inputs of `UpdateCameraMovement`: the clock delta, the base
speed, the mouse watcher state and the right-button rotation flag. -/
structure CamEnv where
  dt : ℚ
  baseSpeed : ℚ
  hasMouse : Bool
  rotateCamera : Bool
  mouseX : ℚ
  mouseY : ℚ
  deriving DecidableEq

/-- Mutable state read and written by `UpdateCameraMovement`. -/
structure CamState where
  speedBoost : Bool
  keys : Keys6
  mouseX_last : ℚ
  mouseY_last : ℚ
  move_z : ℚ
  camHeading : ℚ
  camPitch : ℚ
  deriving DecidableEq

/-- Camera calls made at the end of the frame, in order:
`camera.setPos(camera, move_x, -move_y, 0)`, `camera.setZ(move_z)` and
`camera.setHpr(camHeading, camPitch, 0)`. -/
inductive CamCmd where
  | setPosRel (x y z : ℚ)
  | setZ (z : ℚ)
  | setHpr (h p r : ℚ)
  deriving DecidableEq

/-- Lines 34-77, in source order: read the clock delta, boost the speed,
compute the mouse deltas (only when the mouse is in the window and
`rotateCamera` is held), clamp the delta to 0.05, then apply keyboard
translation, height keys, arrow keys at 90 degrees per second and the
mouse deltas at 5000 units per second. -/
def UpdateCameraMovement (env : CamEnv) (s : CamState) : CamState × List CamCmd :=
  let deltaT := env.dt
  let speed := env.baseSpeed
  let speed := if s.speedBoost then speed * 4 else speed
  let mouseOn := env.hasMouse && env.rotateCamera
  let deltaX := if mouseOn then env.mouseX - s.mouseX_last else 0
  let deltaY := if mouseOn then env.mouseY - s.mouseY_last else 0
  let mouseX_last := if mouseOn then env.mouseX else s.mouseX_last
  let mouseY_last := if mouseOn then env.mouseY else s.mouseY_last
  let deltaT := if deltaT > 0.05 then 0.05 else deltaT
  let move_x := deltaT * speed * (-s.keys.a) + deltaT * speed * s.keys.d
  let move_y := deltaT * speed * s.keys.s + deltaT * speed * (-s.keys.w)
  let move_z := s.move_z +
    (deltaT * speed * s.keys.shift + deltaT * speed * (-s.keys.control))
  let camHeading := s.camHeading +
    (deltaT * 90 * s.keys.arrow_left + deltaT * 90 * (-s.keys.arrow_right) +
     deltaT * 5000 * (-deltaX))
  let camPitch := s.camPitch +
    (deltaT * 90 * s.keys.arrow_up + deltaT * 90 * (-s.keys.arrow_down) +
     deltaT * 5000 * deltaY)
  ({ s with mouseX_last := mouseX_last, mouseY_last := mouseY_last
            move_z := move_z, camHeading := camHeading, camPitch := camPitch },
   [CamCmd.setPosRel move_x (-move_y) 0, CamCmd.setZ move_z,
    CamCmd.setHpr camHeading camPitch 0])

/-! ## interaction.py: onKey (lines 127-133) -/

/-- Gui notifications emitted by the key handler. -/
inductive GuiEvent where
  | onSpeedBoostChanged (b : Bool)
  deriving DecidableEq

/-- State touched by `onKey`: the key dictionary (values are the ints the
event bindings pass) and the speed boost flag. -/
structure KeyState where
  keys : String → Nat
  speedBoost : Bool

/-- Lines 127-133: store `value` under `key`, then, whenever
`self.keys["space"]` is truthy after the store, toggle `speedBoost` and
notify the gui. -/
def onKey (s : KeyState) (key : String) (value : Nat) : KeyState × List GuiEvent :=
  let keys1 := fun k => if k = key then value else s.keys k
  if keys1 "space" ≠ 0 then
    ({ keys := keys1, speedBoost := !s.speedBoost },
     [GuiEvent.onSpeedBoostChanged (!s.speedBoost)])
  else
    ({ keys := keys1, speedBoost := s.speedBoost }, [])

/-! ## interaction.py: CloseApp (lines 198-202) -/

/-- The client state `CloseApp` could touch. -/
structure ClientState where
  terminateClientThread : Bool
  deriving DecidableEq

/-- The statements of the `CloseApp` body, as written. -/
inductive CStmt where
  | logLine (s : String)
  | sysExit (code : Nat)
  | setTerminate (b : Bool)
  deriving DecidableEq

/-- Lines 198-202 verbatim: log, `sys.exit(0)`, then the assignment
`self.client.terminateClientThread = True`. -/
def closeAppBody : List CStmt :=
  [CStmt.logLine "CLOSE app event", CStmt.sysExit 0, CStmt.setTerminate true]

/-- Sequential execution of statements over the client state: `sys.exit`
raises `SystemExit`, so execution stops there and reports the exit
code. -/
def execStmts : List CStmt → ClientState → ClientState × Option Nat
  | [], c => (c, none)
  | CStmt.logLine _ :: rest, c => execStmts rest c
  | CStmt.sysExit n :: _, c => (c, some n)
  | CStmt.setTerminate b :: rest, c =>
      execStmts rest { c with terminateClientThread := b }

/-- `CloseApp` runs its body over the client state. -/
def CloseApp (c : ClientState) : ClientState × Option Nat :=
  execStmts closeAppBody c

/-! ## neuron.py: cNeuron.UpdateState (lines 26-33) -/

/-- Calls made on the private graphics node. -/
inductive NodeCmd where
  | setColor (r g b a : ℚ)
  | setRenderModeFilledWireframe (r g b a : ℚ)
  deriving DecidableEq

/-- Lines 26-33: color the node red when `state` is true, white when it is
false, then re-apply the filled-wireframe render mode with a black
wireframe color. -/
def UpdateState (state : Bool) : List NodeCmd :=
  (if state then [NodeCmd.setColor 1 0 0 1]
   else [NodeCmd.setColor 1 1 1 1]) ++
  [NodeCmd.setRenderModeFilledWireframe 0 0 0 1]

/-! ## Claim theorems: neuron, keys, close, camera -/

/-- C8: for a neuron whose graphics node exists, `UpdateState` issues the
red color call (1,0,0,1) iff `state` is true and the white color call
(1,1,1,1) iff `state` is false, and in both cases the last call re-applies
the filled-wireframe render mode with a black wireframe color. -/
theorem c8_updateState_color (state : Bool) :
    (NodeCmd.setColor 1 0 0 1 ∈ UpdateState state ↔ state = true) ∧
    (NodeCmd.setColor 1 1 1 1 ∈ UpdateState state ↔ state = false) ∧
    (UpdateState state).getLast? =
      some (NodeCmd.setRenderModeFilledWireframe 0 0 0 1) := by
  cases state <;> refine ⟨?_, ?_, rfl⟩ <;> simp [UpdateState]

/-- C9: `onKey` first stores `value` under `key`, then toggles
`speedBoost` and notifies the gui exactly when `keys["space"]` is truthy
after the store — so any key event delivered while space is held down,
including presses and releases of other keys, toggles the boost. -/
theorem c9_onKey_spec (s : KeyState) (key : String) (value : Nat) :
    (onKey s key value).1.keys key = value ∧
    (onKey s key value).1.keys "space" =
      (if "space" = key then value else s.keys "space") ∧
    (onKey s key value).1.speedBoost =
      (if (onKey s key value).1.keys "space" = 0 then s.speedBoost
       else !s.speedBoost) ∧
    (onKey s key value).2 =
      (if (onKey s key value).1.keys "space" = 0 then []
       else [GuiEvent.onSpeedBoostChanged (!s.speedBoost)]) := by
  unfold onKey
  by_cases hsp : (if "space" = key then value else s.keys "space") = 0 <;>
    simp [hsp]

/-- C10: `CloseApp` raises `SystemExit` via `sys.exit(0)` before the
assignment to `terminateClientThread`, so the client flag is never
changed and the exit code 0 is always raised. -/
theorem c10_closeApp_never_terminates_client (c : ClientState) :
    (CloseApp c).1.terminateClientThread = c.terminateClientThread ∧
    (CloseApp c).2 = some 0 :=
  ⟨rfl, rfl⟩

/-- C6: `UpdateCameraMovement` clamps the frame delta to at most 0.05
before applying it; a/d and w/s translate the camera, shift/control change
the camera height, the arrow keys turn heading and pitch at 90 degrees per
second, and the mouse deltas contribute only when `rotateCamera` is held
and the mouse is inside the window, being zero otherwise. -/
theorem c6_updateCameraMovement_spec (env : CamEnv) (s : CamState) :
    (if env.dt > 0.05 then (0.05 : ℚ) else env.dt) ≤ 0.05 ∧
    (UpdateCameraMovement env s).2 =
      (let dtc : ℚ := if env.dt > 0.05 then 0.05 else env.dt
       let spd : ℚ := if s.speedBoost then env.baseSpeed * 4 else env.baseSpeed
       let dX : ℚ := if env.hasMouse && env.rotateCamera
                     then env.mouseX - s.mouseX_last else 0
       let dY : ℚ := if env.hasMouse && env.rotateCamera
                     then env.mouseY - s.mouseY_last else 0
       [CamCmd.setPosRel (dtc * spd * (-s.keys.a) + dtc * spd * s.keys.d)
          (-(dtc * spd * s.keys.s + dtc * spd * (-s.keys.w))) 0,
        CamCmd.setZ (s.move_z +
          (dtc * spd * s.keys.shift + dtc * spd * (-s.keys.control))),
        CamCmd.setHpr
          (s.camHeading +
            (dtc * 90 * s.keys.arrow_left + dtc * 90 * (-s.keys.arrow_right) +
             dtc * 5000 * (-dX)))
          (s.camPitch +
            (dtc * 90 * s.keys.arrow_up + dtc * 90 * (-s.keys.arrow_down) +
             dtc * 5000 * dY)) 0]) ∧
    (UpdateCameraMovement env s).1.camHeading =
      s.camHeading +
        ((if env.dt > 0.05 then (0.05 : ℚ) else env.dt) * 90 * s.keys.arrow_left +
         (if env.dt > 0.05 then (0.05 : ℚ) else env.dt) * 90 * (-s.keys.arrow_right) +
         (if env.dt > 0.05 then (0.05 : ℚ) else env.dt) * 5000 *
           (-(if env.hasMouse && env.rotateCamera
              then env.mouseX - s.mouseX_last else 0))) ∧
    (UpdateCameraMovement env s).1.camPitch =
      s.camPitch +
        ((if env.dt > 0.05 then (0.05 : ℚ) else env.dt) * 90 * s.keys.arrow_up +
         (if env.dt > 0.05 then (0.05 : ℚ) else env.dt) * 90 * (-s.keys.arrow_down) +
         (if env.dt > 0.05 then (0.05 : ℚ) else env.dt) * 5000 *
           (if env.hasMouse && env.rotateCamera
            then env.mouseY - s.mouseY_last else 0)) ∧
    (UpdateCameraMovement env s).1.move_z =
      s.move_z +
        ((if env.dt > 0.05 then (0.05 : ℚ) else env.dt) *
           (if s.speedBoost then env.baseSpeed * 4 else env.baseSpeed) * s.keys.shift +
         (if env.dt > 0.05 then (0.05 : ℚ) else env.dt) *
           (if s.speedBoost then env.baseSpeed * 4 else env.baseSpeed) *
           (-s.keys.control)) := by
  refine ⟨?_, rfl, rfl, rfl, rfl⟩
  split
  · exact le_refl _
  · exact le_of_not_lt (by assumption)

/-! ## Busy-wait and training-loop lemmas -/

/-- Inversion of `busyWait`: a successful wait exits at the first poll at
or after `t` at which `runInLoop` or `runOneStep` is observed true. -/
theorem busyWait_spec (obs : Nat → ServerFlags) :
    ∀ fuel t tExit, busyWait obs fuel t = some tExit →
      t ≤ tExit ∧
      ((obs tExit).runInLoop = true ∨ (obs tExit).runOneStep = true) ∧
      (∀ u, t ≤ u → u < tExit →
        (obs u).runInLoop = false ∧ (obs u).runOneStep = false) := by
  intro fuel
  induction fuel with
  | zero => intro t tExit h; simp [busyWait] at h
  | succ n ih =>
      intro t tExit h
      rw [busyWait] at h
      split at h
      · next hcond =>
          injection h with h
          subst h
          refine ⟨Nat.le_refl _, ?_, ?_⟩
          · simpa [Bool.or_eq_true] using hcond
          · intro u hu1 hu2; omega
      · next hcond =>
          obtain ⟨h1, h2, h3⟩ := ih (t + 1) tExit h
          refine ⟨by omega, h2, ?_⟩
          intro u hu1 hu2
          rcases Nat.eq_or_lt_of_le hu1 with rfl | hlt
          · simpa [Bool.or_eq_true] using hcond
          · exact h3 u (by omega) hu2

/-- Inversion of `recordPhase`. -/
theorem recordPhase_eq_some {obs : Nat → ServerFlags} {fuel : Nat}
    {record : Record} {d : StepData} {sd : HTM1Data} {t count : Nat}
    {sd1 : HTM1Data} {t1 : Nat} {evs : List LoopEvent}
    (h : recordPhase obs fuel record d sd t count = some (sd1, t1, evs)) :
    ∃ tExit, busyWait obs fuel t = some tExit ∧
      sd1 = stepVis record d sd ∧ t1 = tExit + 1 ∧
      evs = [LoopEvent.publish (stepVis record d sd), LoopEvent.waitExit tExit,
             LoopEvent.resetOneStep, LoopEvent.activateCells count] := by
  unfold recordPhase at h
  split at h
  · exact absurd h (by simp)
  · next tExit heq =>
      refine ⟨tExit, heq, ?_⟩
      simp only [Option.some.injEq, Prod.mk.injEq] at h
      exact ⟨h.1.symm, h.2.1.symm, h.2.2.symm⟩

/-- `stepVis` overwrites every field of the published object, so its
result does not depend on the previous server data. -/
theorem stepVis_sd_irrel (record : Record) (d : StepData) (sd sd' : HTM1Data) :
    stepVis record d sd = stepVis record d sd' := rfl

/-- Master inversion of the training loop: on success the published data
are `visSeq`, the activation steps are consecutive, and the `inputs` and
prediction lists each receive exactly one entry per record. -/
theorem runLoop_spec (obs : Nat → ServerFlags) (fuel : Nat)
    (stepData : Nat → StepData) :
    ∀ (records : List Record) (count : Nat) (acc accF : LoopAcc)
      (evs : List LoopEvent),
      runLoop obs fuel stepData records count acc = some (accF, evs) →
      published evs = visSeq stepData records count acc.sd ∧
      activations evs = List.range' count records.length ∧
      accF.inputs = acc.inputs ++ inputsSeq stepData records count ∧
      accF.preds1 = acc.preds1 ++ predsSeq StepData.pdf1 stepData records count ∧
      accF.preds5 = acc.preds5 ++ predsSeq StepData.pdf5 stepData records count := by
  intro records
  induction records with
  | nil =>
      intro count acc accF evs h
      simp only [runLoop, Option.some.injEq, Prod.mk.injEq] at h
      obtain ⟨h1, h2⟩ := h
      subst h1; subst h2
      simp [published, activations, visSeq, inputsSeq, predsSeq, List.range']
  | cons r rest ih =>
      intro count acc accF evs h
      rw [runLoop] at h
      split at h
      · exact absurd h (by simp)
      · next sd1 t1 evs0 hrp =>
          split at h
          · exact absurd h (by simp)
          · next accF' evsF hrl =>
              simp only [Option.some.injEq, Prod.mk.injEq] at h
              obtain ⟨h1, h2⟩ := h
              subst h1; subst h2
              obtain ⟨tExit, _hbw, hsd1, _ht1, hevs0⟩ := recordPhase_eq_some hrp
              obtain ⟨ih1, ih2, ih3, ih4, ih5⟩ := ih (count + 1) _ accF' evsF hrl
              subst hsd1
              subst hevs0
              have hpub : published
                  ([LoopEvent.publish (stepVis r (stepData count) acc.sd),
                    LoopEvent.waitExit tExit, LoopEvent.resetOneStep,
                    LoopEvent.activateCells count] ++ evsF) =
                  stepVis r (stepData count) acc.sd :: published evsF := by
                simp [published, List.filterMap_append]
              have hact : activations
                  ([LoopEvent.publish (stepVis r (stepData count) acc.sd),
                    LoopEvent.waitExit tExit, LoopEvent.resetOneStep,
                    LoopEvent.activateCells count] ++ evsF) =
                  count :: activations evsF := by
                simp [activations, List.filterMap_append]
              refine ⟨?_, ?_, ?_, ?_, ?_⟩
              · rw [hpub, ih1]; simp [visSeq]
              · rw [hact, ih2, List.length_cons, List.range'_succ]
              · simp [ih3, inputsSeq]
              · simp [ih4, predsSeq]
              · simp [ih5, predsSeq]

/-- Length of the published-data specification sequence. -/
theorem visSeq_length (stepData : Nat → StepData) :
    ∀ (records : List Record) (count : Nat) (sd : HTM1Data),
      (visSeq stepData records count sd).length = records.length := by
  intro records
  induction records with
  | nil => intro count sd; rfl
  | cons r rest ih => intro count sd; simp [visSeq, ih]

/-- Length of the inputs specification sequence. -/
theorem inputsSeq_length (stepData : Nat → StepData) :
    ∀ (records : List Record) (count : Nat),
      (inputsSeq stepData records count).length = records.length := by
  intro records
  induction records with
  | nil => intro count; rfl
  | cons r rest ih => intro count; simp [inputsSeq, ih]

/-- Length of the predictions specification sequence. -/
theorem predsSeq_length (sel : StepData → List ℚ) (stepData : Nat → StepData) :
    ∀ (records : List Record) (count : Nat),
      (predsSeq sel stepData records count).length = records.length := by
  intro records
  induction records with
  | nil => intro count; rfl
  | cons r rest ih => intro count; simp [predsSeq, ih]

/-- Entries of the published-data specification sequence: the `i`-th
published object is the fields filled from record `i` and the step-`i`
external outputs (independently of the server data carried along). -/
theorem visSeq_getElem (stepData : Nat → StepData) :
    ∀ (records : List Record) (count : Nat) (sd : HTM1Data) (i : Nat),
      i < records.length →
      (visSeq stepData records count sd)[i]? =
        (records[i]?).map (fun r => stepVis r (stepData (count + i)) sd) := by
  intro records
  induction records with
  | nil => intro count sd i hi; simp at hi
  | cons r rest ih =>
      intro count sd i hi
      cases i with
      | zero => simp [visSeq]
      | succ j =>
          have hj : j < rest.length := by simpa using hi
          have harith : count + 1 + j = count + (j + 1) := by omega
          simp only [visSeq, List.getElem?_cons_succ]
          rw [ih (count + 1) (stepVis r (stepData count) sd) j hj, harith]
          rfl

/-! ## Claim theorems: the training loop -/

/-- C1: for every record processed by the training loop, after the state
is published the loop busy-waits: no flag is true at any poll before the
exit poll, a flag is true at the exit poll, and the event order shows the
`runOneStep = False` reset happening after the wait and before
`tm.activateCells`. When `runInLoop` is false at the exit poll the exit
must have been caused by `runOneStep`, whose trigger the reset then
consumes — so exactly one record is processed per trigger. -/
theorem c1_step_busy_wait (obs : Nat → ServerFlags) (fuel : Nat)
    (record : Record) (d : StepData) (sd : HTM1Data) (t count : Nat)
    {sd1 : HTM1Data} {t1 : Nat} {evs : List LoopEvent}
    (h : recordPhase obs fuel record d sd t count = some (sd1, t1, evs)) :
    ∃ tExit,
      evs = [LoopEvent.publish (stepVis record d sd), LoopEvent.waitExit tExit,
             LoopEvent.resetOneStep, LoopEvent.activateCells count] ∧
      t ≤ tExit ∧
      (∀ u, t ≤ u → u < tExit →
        (obs u).runInLoop = false ∧ (obs u).runOneStep = false) ∧
      ((obs tExit).runInLoop = true ∨ (obs tExit).runOneStep = true) ∧
      ((obs tExit).runInLoop = false → (obs tExit).runOneStep = true) := by
  obtain ⟨tExit, hbw, _hsd1, _ht1, hevs⟩ := recordPhase_eq_some h
  obtain ⟨h1, h2, h3⟩ := busyWait_spec obs fuel t tExit hbw
  refine ⟨tExit, hevs, h1, h3, h2, ?_⟩
  intro hfalse
  rcases h2 with hh | hh
  · rw [hfalse] at hh; exact absurd hh (by simp)
  · exact hh

/-- Shared concrete data for the loop witnesses: a server that has
`runOneStep` set at every poll. -/
def wObs : Nat → ServerFlags := fun _ => { runInLoop := false, runOneStep := true }

/-- Shared concrete step oracle outputs for the loop witnesses. -/
def wStep : StepData :=
  { consumption := 212 / 10
    consumptionStr := "21.20"
    consumptionBits := { sparse := [1, 3], size := 700 }
    dateBits := { sparse := [0, 2], size := 303 }
    activeColumns := { sparse := [5], size := 1638 }
    winnerCells := { sparse := [7], size := 21294 }
    predictiveCells := { sparse := [9], size := 21294 }
    pdf1 := [1 / 2, 3 / 4]
    pdf5 := [] }

/-- Shared concrete initial server data for the loop witnesses. -/
def wHTM1 : HTM1Data :=
  { slConsumption := { stringValue := "", bits := [], count := 0 }
    slTimeOfDay := { stringValue := "", bits := [], count := 0 }
    sensoryLayer := { activeColumns := [], winnerCells := [], predictiveCells := [] } }

/-- Witness for C1 at a concrete record phase. -/
theorem c1_step_busy_wait_witness :
    ∃ tExit, 0 ≤ tExit ∧
      ((wObs tExit).runInLoop = true ∨ (wObs tExit).runOneStep = true) := by
  obtain ⟨tExit, _hevs, h1, _h3, h2, _h4⟩ :=
    c1_step_busy_wait wObs 1 ("7/2/10 0:00", "21.2") wStep wHTM1 0 0 rfl
  exact ⟨tExit, h1, h2⟩

/-- C2: a completed run of the training loop signals `NewStateDataReady`
exactly once per record, and the data published for record `i` holds the
step-`i` state: the consumption encoding bits and size with the formatted
consumption string, the date encoding bits and size with the raw date
string, and the layer's active columns, winner cells and predictive
cells. -/
theorem c2_loop_publishes_each_record (obs : Nat → ServerFlags) (fuel : Nat)
    (stepData : Nat → StepData) (records : List Record) (sd0 : HTM1Data)
    (t0 : Nat) {accF : LoopAcc} {evs : List LoopEvent}
    (h : runLoop obs fuel stepData records 0 (mkAcc sd0 t0) = some (accF, evs)) :
    (published evs).length = records.length ∧
    ∀ i, i < records.length →
      ∃ r dpub, records[i]? = some r ∧ (published evs)[i]? = some dpub ∧
        dpub.slConsumption.stringValue =
          "consumption: " ++ (stepData i).consumptionStr ∧
        dpub.slConsumption.bits = (stepData i).consumptionBits.sparse ∧
        dpub.slConsumption.count = (stepData i).consumptionBits.size ∧
        dpub.slTimeOfDay.stringValue = r.1 ∧
        dpub.slTimeOfDay.bits = (stepData i).dateBits.sparse ∧
        dpub.slTimeOfDay.count = (stepData i).dateBits.size ∧
        dpub.sensoryLayer.activeColumns = (stepData i).activeColumns.sparse ∧
        dpub.sensoryLayer.winnerCells = (stepData i).winnerCells.sparse ∧
        dpub.sensoryLayer.predictiveCells = (stepData i).predictiveCells.sparse := by
  obtain ⟨hpub, _hact, _hin, _hp1, _hp5⟩ :=
    runLoop_spec obs fuel stepData records 0 _ accF evs h
  have hsd : (mkAcc sd0 t0).sd = sd0 := rfl
  rw [hsd] at hpub
  constructor
  · rw [hpub, visSeq_length]
  · intro i hi
    refine ⟨records[i], stepVis records[i] (stepData i) sd0,
      List.getElem?_eq_getElem hi, ?_, rfl, rfl, rfl, rfl, rfl, rfl, rfl, rfl, rfl⟩
    rw [hpub, visSeq_getElem stepData records 0 sd0 i hi,
      List.getElem?_eq_getElem hi, Option.map_some', Nat.zero_add]

/-- Witness for C2 at a concrete two-record run. -/
theorem c2_loop_publishes_each_record_witness :
    ∃ p, runLoop wObs 1 (fun _ => wStep)
        [("7/2/10 0:00", "21.2"), ("7/2/10 1:00", "16.4")] 0 (mkAcc wHTM1 0) =
        some p ∧ (published p.2).length = 2 := by
  have hs : (runLoop wObs 1 (fun _ => wStep)
      [("7/2/10 0:00", "21.2"), ("7/2/10 1:00", "16.4")] 0
      (mkAcc wHTM1 0)).isSome = true := rfl
  obtain ⟨p, hp⟩ := Option.isSome_iff_exists.mp hs
  refine ⟨p, hp, ?_⟩
  have := (c2_loop_publishes_each_record wObs 1 (fun _ => wStep)
    [("7/2/10 0:00", "21.2"), ("7/2/10 1:00", "16.4")] wHTM1 0 hp).1
  simpa using this

/-- C3: `main` discards the first three rows of the input file (the header
row plus the next two rows) and keeps every remaining row, in file order,
as a record; a completed training loop then performs `tm.activateCells`
exactly once per record, at consecutive step indices 0, 1, ... in file
order. -/
theorem c3_records_and_one_step_each (lines records : List Record)
    (obs : Nat → ServerFlags) (fuel : Nat) (stepData : Nat → StepData)
    (sd0 : HTM1Data) (t0 : Nat) {accF : LoopAcc} {evs : List LoopEvent}
    (hread : readRecords lines = some records)
    (hrun : runLoop obs fuel stepData records 0 (mkAcc sd0 t0) = some (accF, evs)) :
    records = lines.drop 3 ∧
    activations evs = List.range records.length ∧
    (activations evs).length = records.length := by
  have hdrop : records = lines.drop 3 := by
    rcases lines with _ | ⟨a, lines⟩
    · simp [readRecords] at hread
    rcases lines with _ | ⟨b, lines⟩
    · simp [readRecords] at hread
    rcases lines with _ | ⟨c, lines⟩
    · simp [readRecords] at hread
    simp only [readRecords, Option.some.injEq] at hread
    simp [← hread]
  obtain ⟨_hpub, hact, _hin, _hp1, _hp5⟩ :=
    runLoop_spec obs fuel stepData records 0 _ accF evs hrun
  refine ⟨hdrop, ?_, ?_⟩
  · rw [hact, List.range_eq_range']
  · rw [hact, List.length_range']

/-- Witness for C3 at a concrete five-row file. -/
theorem c3_records_and_one_step_each_witness :
    ∃ p, runLoop wObs 1 (fun _ => wStep)
        [("7/2/10 0:00", "21.2"), ("7/2/10 1:00", "16.4")] 0 (mkAcc wHTM1 0) =
        some p ∧
      [("7/2/10 0:00", "21.2"), ("7/2/10 1:00", "16.4")] =
        ([("gym", "date"), ("", ""), ("", ""),
          ("7/2/10 0:00", "21.2"), ("7/2/10 1:00", "16.4")] : List Record).drop 3 := by
  have hs : (runLoop wObs 1 (fun _ => wStep)
      [("7/2/10 0:00", "21.2"), ("7/2/10 1:00", "16.4")] 0
      (mkAcc wHTM1 0)).isSome = true := rfl
  obtain ⟨p, hp⟩ := Option.isSome_iff_exists.mp hs
  refine ⟨p, hp, ?_⟩
  exact (c3_records_and_one_step_each
    [("gym", "date"), ("", ""), ("", ""),
     ("7/2/10 0:00", "21.2"), ("7/2/10 1:00", "16.4")]
    [("7/2/10 0:00", "21.2"), ("7/2/10 1:00", "16.4")]
    wObs 1 (fun _ => wStep) wHTM1 0 rfl hp).1

/-! ## Prediction shifting lemmas -/

/-- One insert-then-pop iteration preserves the list length. -/
theorem shiftStep_length (l : List (Option Nat)) :
    (shiftStep l).length = l.length := by
  simp [shiftStep]

/-- The shifting loop preserves the list length. -/
theorem shiftPredictions_length (n : Nat) :
    ∀ l : List (Option Nat), (shiftPredictions n l).length = l.length := by
  induction n with
  | zero => intro l; rfl
  | succ m ih =>
      intro l
      rw [shiftPredictions, Function.iterate_succ_apply]
      exact (ih (shiftStep l)).trans (shiftStep_length l)

/-- Closed form of the shifting loop: `n` NaN entries are prepended and
the last `n` entries are discarded. -/
theorem shiftPredictions_closed (n : Nat) :
    ∀ l : List (Option Nat), n ≤ l.length →
      shiftPredictions n l = List.replicate n none ++ l.take (l.length - n) := by
  induction n with
  | zero => intro l _; simp [shiftPredictions]
  | succ m ih =>
      intro l hle
      rcases l with _ | ⟨a, l'⟩
      · simp at hle
      · have hstep : shiftStep (a :: l') = none :: (a :: l').dropLast := by
          simp [shiftStep]
        rw [shiftPredictions, Function.iterate_succ_apply, hstep]
        have hm : m ≤ (none :: (a :: l').dropLast).length := by
          simp only [List.length_cons, List.length_dropLast]
          simp only [List.length_cons] at hle ⊢
          omega
        have hrec := ih (none :: (a :: l').dropLast) hm
        rw [show shiftStep^[m] (none :: (a :: l').dropLast) =
          shiftPredictions m (none :: (a :: l').dropLast) from rfl, hrec]
        have hlen' : (none :: (a :: l').dropLast).length = l'.length + 1 := by
          simp
        rw [hlen']
        have hle' : m + 1 ≤ l'.length + 1 := by simpa using hle
        have h1 : l'.length + 1 - m = (l'.length + 1 - (m + 1)) + 1 := by omega
        rw [h1, List.take_succ_cons, List.dropLast_eq_take, List.take_take]
        have h2 : min (l'.length + 1 - (m + 1)) ((a :: l').length - 1) =
            l'.length + 1 - (m + 1) := by
          simp only [List.length_cons]
          omega
        rw [h2, List.append_cons, ← List.replicate_succ']
        simp [List.length_cons]

/-- Index facts for the shifting loop, derived from the closed form. -/
theorem shiftPredictions_facts (n : Nat) (l : List (Option Nat))
    (h : n ≤ l.length) :
    (∀ i, i < n → (shiftPredictions n l)[i]? = some none) ∧
    (∀ i, n ≤ i → i < l.length → (shiftPredictions n l)[i]? = l[i - n]?) := by
  have hc := shiftPredictions_closed n l h
  constructor
  · intro i hi
    rw [hc, List.getElem?_append_left (by simpa using hi)]
    exact List.getElem?_replicate_of_lt hi
  · intro i h1 h2
    rw [hc, List.getElem?_append_right (by simpa using h1),
      List.length_replicate, List.getElem?_take_of_lt (by omega)]

/-- C7: after the prediction-shifting step, for each horizon n in 1, 5 the
prediction list keeps the length of `inputs`; its first n entries are NaN;
entry i (for i at least n) is the prediction produced at step i - n; and
the closed form shows the last n produced predictions are discarded. -/
theorem c7_shifted_predictions (obs : Nat → ServerFlags) (fuel : Nat)
    (stepData : Nat → StepData) (records : List Record) (sd0 : HTM1Data)
    (t0 : Nat) {accF : LoopAcc} {evs : List LoopEvent}
    (h : runLoop obs fuel stepData records 0 (mkAcc sd0 t0) = some (accF, evs))
    (hlen : 5 ≤ records.length) :
    (shiftPredictions 1 accF.preds1).length = accF.inputs.length ∧
    (shiftPredictions 5 accF.preds5).length = accF.inputs.length ∧
    (∀ i, i < 1 → (shiftPredictions 1 accF.preds1)[i]? = some none) ∧
    (∀ i, i < 5 → (shiftPredictions 5 accF.preds5)[i]? = some none) ∧
    (∀ i, 1 ≤ i → i < accF.preds1.length →
      (shiftPredictions 1 accF.preds1)[i]? = accF.preds1[i - 1]?) ∧
    (∀ i, 5 ≤ i → i < accF.preds5.length →
      (shiftPredictions 5 accF.preds5)[i]? = accF.preds5[i - 5]?) ∧
    shiftPredictions 1 accF.preds1 =
      List.replicate 1 none ++ accF.preds1.take (accF.preds1.length - 1) ∧
    shiftPredictions 5 accF.preds5 =
      List.replicate 5 none ++ accF.preds5.take (accF.preds5.length - 5) := by
  obtain ⟨_hpub, _hact, hin, hp1, hp5⟩ :=
    runLoop_spec obs fuel stepData records 0 _ accF evs h
  have hinLen : accF.inputs.length = records.length := by
    rw [hin]; simp [mkAcc, inputsSeq_length]
  have hp1Len : accF.preds1.length = records.length := by
    rw [hp1]; simp [mkAcc, predsSeq_length]
  have hp5Len : accF.preds5.length = records.length := by
    rw [hp5]; simp [mkAcc, predsSeq_length]
  have h1le : 1 ≤ accF.preds1.length := by omega
  have h5le : 5 ≤ accF.preds5.length := by omega
  obtain ⟨f1a, f1b⟩ := shiftPredictions_facts 1 accF.preds1 h1le
  obtain ⟨f5a, f5b⟩ := shiftPredictions_facts 5 accF.preds5 h5le
  refine ⟨?_, ?_, f1a, f5a, f1b, f5b,
    shiftPredictions_closed 1 accF.preds1 h1le,
    shiftPredictions_closed 5 accF.preds5 h5le⟩
  · rw [shiftPredictions_length]; omega
  · rw [shiftPredictions_length]; omega

/-- Shared five-record input for the C7 witness. -/
def wRecs5 : List Record :=
  [("7/2/10 0:00", "21.2"), ("7/2/10 1:00", "16.4"), ("7/2/10 2:00", "4.7"),
   ("7/2/10 3:00", "4.7"), ("7/2/10 4:00", "4.6")]

/-- Witness for C7 at a concrete five-record run. -/
theorem c7_shifted_predictions_witness :
    ∃ p, runLoop wObs 1 (fun _ => wStep) wRecs5 0 (mkAcc wHTM1 0) = some p ∧
      (shiftPredictions 5 p.1.preds5).length = p.1.inputs.length := by
  have hs : (runLoop wObs 1 (fun _ => wStep) wRecs5 0
      (mkAcc wHTM1 0)).isSome = true := rfl
  obtain ⟨p, hp⟩ := Option.isSome_iff_exists.mp hs
  refine ⟨p, hp, ?_⟩
  exact (c7_shifted_predictions wObs 1 (fun _ => wStep) wRecs5 wHTM1 0 hp
    (by simp [wRecs5])).2.1

/-! ## Picking lemmas -/

/-- `findNetTagRev` finds something iff some node of the scanned list
carries the tag. -/
theorem findNetTagRev_ne_nil_iff (k : String) :
    ∀ l : List SceneNode,
      findNetTagRev k l ≠ [] ↔ l.any (fun n => hasTag n k) = true := by
  intro l
  induction l with
  | nil => simp [findNetTagRev]
  | cons n rest ih =>
      by_cases htag : hasTag n k
      · simp [findNetTagRev, htag]
      · simp [findNetTagRev, htag, ih]

/-- A non-empty `findNetTag` result iff some node on the path carries the
tag. -/
theorem findNetTag_ne_nil_iff (p : NodePathM) (k : String) :
    findNetTag p k ≠ [] ↔ p.any (fun n => hasTag n k) = true := by
  rw [findNetTag, findNetTagRev_ne_nil_iff, List.any_reverse]

/-- A non-empty `findNetTag` result ends at a node carrying the tag. -/
theorem findNetTagRev_getLast (k : String) :
    ∀ l : List SceneNode, findNetTagRev k l ≠ [] →
      ∃ n, (findNetTagRev k l).getLast? = some n ∧ hasTag n k = true := by
  intro l
  induction l with
  | nil => intro h; simp [findNetTagRev] at h
  | cons n rest ih =>
      intro h
      by_cases htag : hasTag n k
      · refine ⟨n, ?_, htag⟩
        simp [findNetTagRev, htag, List.getLast?_reverse]
      · rw [findNetTagRev, if_neg htag] at h ⊢
        exact ih h

/-- Membership in an insertion step of the queue sort. -/
theorem mem_insertEntry {x e : CollisionEntry} :
    ∀ {l : List CollisionEntry}, x ∈ insertEntry e l ↔ x = e ∨ x ∈ l := by
  intro l
  induction l with
  | nil => simp [insertEntry]
  | cons y rest ih =>
      by_cases hd : e.dist ≤ y.dist
      · simp only [insertEntry, if_pos hd, List.mem_cons]
      · simp only [insertEntry, if_neg hd, List.mem_cons, ih]
        tauto

/-- `sortEntries` permutes the queue membership-wise. -/
theorem mem_sortEntries {x : CollisionEntry} :
    ∀ {l : List CollisionEntry}, x ∈ sortEntries l ↔ x ∈ l := by
  intro l
  induction l with
  | nil => simp [sortEntries]
  | cons y rest ih => simp [sortEntries, mem_insertEntry, ih]

/-- Inserting preserves the head-is-minimal property. -/
theorem insertEntry_head_min (e : CollisionEntry) (l : List CollisionEntry)
    (hl : ∀ x ∈ l, (l.headD defaultEntry).dist ≤ x.dist) :
    ∀ x ∈ insertEntry e l, ((insertEntry e l).headD defaultEntry).dist ≤ x.dist := by
  intro x hx
  cases l with
  | nil =>
      simp [insertEntry] at hx ⊢
      simp [hx]
  | cons y rest =>
      by_cases hd : e.dist ≤ y.dist
      · rw [insertEntry, if_pos hd] at hx ⊢
        simp only [List.headD_cons]
        simp only [List.mem_cons] at hx
        rcases hx with rfl | rfl | hx
        · exact le_refl _
        · exact hd
        · exact le_trans hd (by simpa using hl x (by simp [hx]))
      · rw [insertEntry, if_neg hd] at hx ⊢
        simp only [List.headD_cons]
        simp only [List.mem_cons, mem_insertEntry] at hx
        rcases hx with rfl | rfl | hx
        · exact le_refl _
        · exact le_of_lt (lt_of_not_le hd)
        · simpa using hl x (by simp [hx])

/-- The head of the sorted queue is the closest entry. -/
theorem sortEntries_head_min (l : List CollisionEntry) :
    ∀ x ∈ sortEntries l, ((sortEntries l).headD defaultEntry).dist ≤ x.dist := by
  induction l with
  | nil => intro x hx; simp [sortEntries] at hx
  | cons y rest ih => exact insertEntry_head_min y (sortEntries rest) ih

/-- The engine actions of a click. -/
theorem onClickObject_fst (mx my : ℚ) (entries : List CollisionEntry) :
    (onClickObject mx my entries).1 =
      [PickAction.setFromLens mx my, PickAction.traverse] := by
  unfold onClickObject
  dsimp only
  by_cases h : entries.length > 0
  · rw [if_pos h]
    split <;> rfl
  · rw [if_neg h]

/-- The picked object of a click, in closed form. -/
theorem onClickObject_snd (mx my : ℚ) (entries : List CollisionEntry) :
    (onClickObject mx my entries).2 =
      (if entries.length > 0 then
        (if (findNetTag ((sortEntries entries).headD
              defaultEntry).intoNodePath "clickable").isEmpty then none
         else some (findNetTag ((sortEntries entries).headD
              defaultEntry).intoNodePath "clickable"))
       else none) := by
  unfold onClickObject
  dsimp only
  by_cases h : entries.length > 0
  · rw [if_pos h, if_pos h]
    split
    · rfl
    · rfl
  · rw [if_neg h, if_neg h]

/-- C4: a left click always casts the picker ray through the mouse
position and traverses the scene; an object is handed to
`HandlePickedObject` exactly when the collision queue is non-empty and the
closest entry of the sorted queue lies under a node carrying the net tag
"clickable"; in every other case no object is handled. The handed object
is the sub-path ending at the tagged node, and the sorted head is indeed
the closest entry. -/
theorem c4_onClickObject_spec (mx my : ℚ) (entries : List CollisionEntry) :
    (onClickObject mx my entries).1 =
      [PickAction.setFromLens mx my, PickAction.traverse] ∧
    (∀ obj, (onClickObject mx my entries).2 = some obj →
      entries ≠ [] ∧
      obj = findNetTag ((sortEntries entries).headD
          defaultEntry).intoNodePath "clickable" ∧
      obj ≠ [] ∧
      (∃ n, obj.getLast? = some n ∧ hasTag n "clickable" = true) ∧
      (((sortEntries entries).headD defaultEntry).intoNodePath).any
          (fun n => hasTag n "clickable") = true ∧
      (∀ e ∈ entries, ((sortEntries entries).headD defaultEntry).dist ≤ e.dist)) ∧
    ((entries = [] ∨
      findNetTag ((sortEntries entries).headD
          defaultEntry).intoNodePath "clickable" = []) →
      (onClickObject mx my entries).2 = none) := by
  refine ⟨onClickObject_fst mx my entries, ?_, ?_⟩
  · intro obj hobj
    rw [onClickObject_snd] at hobj
    by_cases h : entries.length > 0
    · rw [if_pos h] at hobj
      by_cases h2 : (findNetTag ((sortEntries entries).headD
          defaultEntry).intoNodePath "clickable").isEmpty
      · rw [if_pos h2] at hobj; exact absurd hobj (by simp)
      · rw [if_neg h2] at hobj
        have hobj' : obj = findNetTag ((sortEntries entries).headD
            defaultEntry).intoNodePath "clickable" := by
          injection hobj with hh; exact hh.symm
        have hne : findNetTag ((sortEntries entries).headD
            defaultEntry).intoNodePath "clickable" ≠ [] := by
          simpa [List.isEmpty_iff] using h2
        refine ⟨by simpa [List.length_pos] using h, hobj', ?_, ?_, ?_, ?_⟩
        · rw [hobj']; exact hne
        · rw [hobj']
          exact findNetTagRev_getLast "clickable" _ (by simpa [findNetTag] using hne)
        · exact (findNetTag_ne_nil_iff _ _).mp hne
        · intro e he
          exact sortEntries_head_min entries e (mem_sortEntries.mpr he)
    · rw [if_neg h] at hobj; exact absurd hobj (by simp)
  · intro hcase
    rw [onClickObject_snd]
    by_cases h : entries.length > 0
    · rw [if_pos h]
      rcases hcase with hcase | hcase
      · exfalso; rw [hcase] at h; simp at h
      · rw [if_pos (List.isEmpty_iff.mpr hcase)]
    · rw [if_neg h]

/-- Shared concrete scene nodes for the picking witnesses. -/
def wRender : SceneNode := { name := "render", tags := [] }

/-- A clickable cell node used by the witnesses. -/
def wCellNode : SceneNode := { name := "cell", tags := [("clickable", "3")] }

/-- A concrete picked path. -/
def wPath : NodePathM := [wRender, wCellNode]

/-- A concrete collision entry. -/
def wEntry : CollisionEntry := { dist := 1, intoNodePath := wPath }

/-- Witness for C4 at a concrete click on a clickable cell. -/
theorem c4_onClickObject_witness :
    (onClickObject 0 0 [wEntry]).2 = some wPath ∧ wPath ≠ [] := by
  have h := (c4_onClickObject_spec 0 0 [wEntry]).2.1 wPath rfl
  exact ⟨rfl, by simpa using h.2.2.1⟩

/-! ## Claim theorem: HandlePickedObject -/

/-- C5: `HandlePickedObject` keeps at most one cell focused. On a handled
node named "cell" (its "clickable" tag numeric, the parent's "id" tag
non-empty) the previously focused cell, if any, is reset before the new
cell receives focus — the event order shows it — and afterwards the
controller's `focusedCell`/`focusedPath`, the gui focus fields and the
graphics focus flags all designate exactly the new cell. When the parent's
"id" tag is empty the method returns with the state unchanged and no
focus calls made. -/
theorem c5_handlePickedObject_focus (env : BaseEnv) (s : InteractionState)
    (obj : NodePathM) {s' : InteractionState} {evs : List HEvent}
    (hinv : FocusInv s)
    (h : HandlePickedObject env s obj = some (s', evs)) :
    (∀ parent, obj.dropLast.getLast? = some parent →
      getTag parent "id" = "" → s' = s ∧ evs = []) ∧
    (∀ node parent, obj.getLast? = some node →
      obj.dropLast.getLast? = some parent →
      node.name = "cell" → getTag parent "id" ≠ "" →
      FocusInv s' ∧
      ∃ c, s'.focusedCell = some c ∧
        s'.focusFlags = [c] ∧
        s'.gui.focusedCell = some c ∧
        s'.gui.focusedPath = s'.focusedPath ∧
        (∃ hN lN, s'.focusedPath = some [hN, lN] ∧
          (obj.map SceneNode.name)[1]? = some hN ∧
          (obj.map SceneNode.name)[2]? = some lN) ∧
        evs = (match s.focusedCell with
               | some old => [HEvent.resetFocus old]
               | none => []) ++ [HEvent.setFocus c] ++
              ((if s.gui.showProximalSynapses then [HEvent.reqProximalData]
                else []) ++
               (if s.gui.showDistalSynapses then [HEvent.reqDistalData]
                else []))) := by
  simp only [HandlePickedObject, Option.pure_def, Option.bind_eq_bind,
    Option.bind_eq_some] at h
  obtain ⟨node0, hn0, h⟩ := h
  obtain ⟨thisId0, hth0, h⟩ := h
  obtain ⟨parent0, hp0, h⟩ := h
  constructor
  · intro parent hparent htag
    rw [hp0] at hparent
    injection hparent with e
    subst e
    rw [if_pos htag] at h
    simp only [Option.some.injEq, Prod.mk.injEq] at h
    exact ⟨h.1.symm, h.2.symm⟩
  · intro node parent hnode hparent hname htag
    rw [hn0] at hnode
    injection hnode with e1
    subst e1
    rw [hp0] at hparent
    injection hparent with e2
    subst e2
    rw [if_neg htag] at h
    simp only [Option.bind_eq_some] at h
    obtain ⟨parentId0, hpid, h⟩ := h
    rw [if_pos hname] at h
    simp only [Option.bind_eq_some] at h
    obtain ⟨hN, hhN, h⟩ := h
    obtain ⟨lN, hlN, h⟩ := h
    obtain ⟨htmO, hhtmO, h⟩ := h
    obtain ⟨layer, hlayer, h⟩ := h
    obtain ⟨column, hcolumn, h⟩ := h
    obtain ⟨newCell, hnewCell, h⟩ := h
    simp only [Option.some.injEq, Prod.mk.injEq] at h
    obtain ⟨hs', hevs⟩ := h
    subst hs'
    subst hevs
    have hflags1 : (match s.focusedCell with
        | some old => s.focusFlags.filter (fun c => c ≠ old)
        | none => s.focusFlags) = [] := by
      cases hf : s.focusedCell with
      | none =>
          simp only
          refine List.eq_nil_iff_forall_not_mem.mpr fun c hc => ?_
          have := hinv c hc
          rw [hf] at this
          exact Option.noConfusion this
      | some old =>
          simp only
          refine List.filter_eq_nil_iff.mpr fun c hc => ?_
          have := hinv c hc
          rw [hf] at this
          injection this with e
          subst e
          simp
    refine ⟨?_, newCell, rfl, ?_, rfl, rfl, ⟨hN, lN, rfl, hhN, hlN⟩, rfl⟩
    · intro c hc
      simp only [hflags1, List.filter_nil] at hc
      simp only [List.mem_singleton] at hc
      subst hc
      rfl
    · simp only [hflags1, List.filter_nil]

/-- Concrete HTM object node for the C5 witness path. -/
def wHTMNode : SceneNode := { name := "HTM1", tags := [] }

/-- Concrete layer node for the C5 witness path. -/
def wLayerNode : SceneNode := { name := "SensoryLayer", tags := [] }

/-- Concrete column (parent) node with a numeric "id" tag. -/
def wParentNode : SceneNode := { name := "column", tags := [("id", "0")] }

/-- Concrete picked path render/HTM1/SensoryLayer/column/cell. -/
def wObjPath : NodePathM := [wRender, wHTMNode, wLayerNode, wParentNode, wCellNode]

/-- Concrete base environment: one HTM object, one layer, one column of
four cells. -/
def wEnv : BaseEnv :=
  { htmObjects :=
      [("HTM1", { layers := [("SensoryLayer",
          { corticalColumns := [[10, 11, 12, 13]] })] })]
    cellColumnOf := fun _ => [10, 11, 12, 13] }

/-- Concrete interaction state with nothing focused. -/
def wS0 : InteractionState :=
  { focusedCell := none
    focusedPath := none
    gui := { focusedCell := none, focusedPath := none, columnID := 0,
             cellID := 0, showProximalSynapses := false,
             showDistalSynapses := false }
    focusFlags := [] }

/-- Witness for C5 at a concrete click on cell 3 of column 0. -/
theorem c5_handlePickedObject_focus_witness :
    ∃ p, HandlePickedObject wEnv wS0 wObjPath = some p ∧ FocusInv p.1 := by
  have hs : (HandlePickedObject wEnv wS0 wObjPath).isSome = true := rfl
  obtain ⟨p, hp⟩ := Option.isSome_iff_exists.mp hs
  refine ⟨p, hp, ?_⟩
  exact ((c5_handlePickedObject_focus wEnv wS0 wObjPath (by decide) hp).2
    wCellNode wParentNode rfl rfl rfl (by decide)).1
